import Mathlib

/-!
Verification of the feature-union notebook core: the header/body splitter
(SubjectBodyExtractor), the field selector (ItemSelector), the text
statistics extractor (TextStats), the weighted feature-union combiner, and
the end-to-end pipeline configuration (transformer names and weights).

Raw document strings are embedded as lists of characters (`Str`).  The
external text-cleaning utilities applied to the body (footer and quoting
removal) are delegated collaborators; the splitter is parameterised over a
single function `strip` standing for their composition.
-/

namespace FeatureUnionDoc

abbrev Str := List Char

/-- Python `line.startswith(p)`: `isPre p s` is true when `p` is an initial
segment of `s`. -/
def isPre : Str → Str → Bool
  | [], _ => true
  | _ :: _, [] => false
  | a :: as, b :: bs => a == b && isPre as bs

/-- Locate the first occurrence of the separator `sep` in `s`, returning the
text before it and the text after it (Python `s.find` as used by
`str.partition`). -/
def findSep (sep : Str) : Str → Option (Str × Str)
  | [] => none
  | c :: rest =>
      if isPre sep (c :: rest) then some ([], (c :: rest).drop sep.length)
      else (findSep sep rest).map (fun p => (c :: p.1, p.2))

/-- Python `s.partition(sep)` restricted to the first and third components:
split at the first occurrence of `sep`; when `sep` does not occur, the
whole string is the first component and the third is empty. -/
def partitionPy (sep : Str) (s : Str) : Str × Str :=
  match findSep sep s with
  | some p => p
  | none => (s, [])

/-- Whether `sep` occurs in `s` as a contiguous subsequence. -/
def containsSeq (sep : Str) (s : Str) : Bool :=
  (findSep sep s).isSome

/-- The blank-line boundary used by the splitter: the literal two-character
sequence of newline, newline. -/
def nlnl : Str := ['\n', '\n']

/-- Python `headers.split(c)` for a single-character separator: always
returns at least one (possibly empty) piece, and empty pieces are kept. -/
def splitNl : Str → List Str
  | [] => [[]]
  | c :: rest =>
      if c = '\n' then [] :: splitNl rest
      else
        match splitNl rest with
        | [] => [[c]]
        | l :: ls => (c :: l) :: ls

/-- The literal header-line marker scanned for by the splitter. -/
def subjMarker : Str := ['S', 'u', 'b', 'j', 'e', 'c', 't', ':']

/-- The subject-scanning loop of `SubjectBodyExtractor.transform`: walk the
header lines, and on the first line starting with the marker return the
remainder of that line (the loop breaks); if no line matches, return the
empty string (the initial value of `sub`). -/
def findSubject : List Str → Str
  | [] => []
  | l :: ls => if isPre subjMarker l then l.drop subjMarker.length else findSubject ls

/-- Subject of one document: partition at the first blank-line boundary and
scan the header part line by line. -/
def sbSubject (text : Str) : Str :=
  findSubject (splitNl (partitionPy nlnl text).1)

/-- Body of one document: the part after the first blank-line boundary,
passed through the external text-cleaning utility `strip` (the composition
of footer stripping and quoting stripping, delegated collaborators). -/
def sbBody (strip : Str → Str) (text : Str) : Str :=
  strip (partitionPy nlnl text).2

/-- `SubjectBodyExtractor.transform`: from a batch of raw document strings,
build the record batch with the two fields `subject` and `body`, each a
sequence aligned with the input batch. -/
def SubjectBodyExtractor.transform (strip : Str → Str) (posts : List Str) :
    List (String × List Str) :=
  [("subject", posts.map sbSubject), ("body", posts.map (sbBody strip))]

/-- `ItemSelector`: configured with a single key. -/
structure ItemSelector where
  key : String

/-- `ItemSelector.fit` returns the selector itself, unchanged. -/
def ItemSelector.fit {α β : Type} (s : ItemSelector) (_x : α) (_y : Option β) :
    ItemSelector :=
  s

/-- `ItemSelector.transform`: Python dict indexing `data_dict[self.key]`,
which raises `KeyError` (a `LookupError`) when the key is absent; the
fallible lookup is embedded as `Except`. -/
def ItemSelector.transform {α : Type} (s : ItemSelector) (d : List (String × α)) :
    Except String α :=
  match d.lookup s.key with
  | some v => Except.ok v
  | none => Except.error "KeyError"

/-- One record produced by `TextStats`: the two numeric entries of the
Python dict. -/
structure TextStatsRecord where
  length : Nat
  num_sentences : Nat
deriving DecidableEq

/-- Python `text.count(c)` for the single character full stop: the number
of occurrences of the full-stop character in the string. -/
def countDots : Str → Nat
  | [] => 0
  | c :: rest => (if c = '.' then 1 else 0) + countDots rest

/-- `TextStats.transform`: one record per input string, in order, holding
its character count and its full-stop count. -/
def TextStats.transform (posts : List Str) : List TextStatsRecord :=
  posts.map (fun text => ⟨text.length, countDots text⟩)

/-- A numeric feature matrix: a list of rows, each a list of rational
entries. -/
abbrev Mat := List (List ℚ)

/-- A field batch: a mapping from field name to the per-document sequence
for that field. -/
abbrev FieldBatch := List (String × List Str)

/-- Scale every entry of a matrix by a weight. -/
def scaleMatrix (w : ℚ) (m : Mat) : Mat :=
  m.map (fun row => row.map (fun x => w * x))

/-- Modelled from the spec: column-wise (horizontal) concatenation of a
list of matrices with a common row count, as performed by the external
feature-union combiner when reassembling sub-pipeline outputs; the
combiner itself lives in the external library, not in this repository. -/
def hstackAll : List Mat → Mat
  | [] => []
  | [m] => m
  | m :: ms => List.zipWith (fun r s => r ++ s) m (hstackAll ms)

/-- Modelled from the spec: the weight attached to a named sub-pipeline,
defaulting to one when the name has no entry in the weight mapping. -/
def getWeight (ws : List (String × ℚ)) (name : String) : ℚ :=
  (ws.lookup name).getD 1

/-- Modelled from the spec: the feature-union combiner configuration, an
ordered list of named sub-pipelines (each a function from the shared field
batch to a feature matrix) and a weight mapping. -/
structure FeatureUnion where
  transformer_list : List (String × (FieldBatch → Mat))
  transformer_weights : List (String × ℚ)

/-- Modelled from the spec: running the feature-union combiner on a field
batch runs every sub-pipeline on that same batch, scales each output
matrix by its weight, and concatenates the results column-wise in
configured list order. -/
def FeatureUnion.transform (u : FeatureUnion) (X : FieldBatch) : Mat :=
  hstackAll (u.transformer_list.map
    (fun nt => scaleMatrix (getWeight u.transformer_weights nt.1) (nt.2 X)))

/-- The names of the three sub-pipelines configured in the end-to-end
pipeline of the notebook, in configured order. -/
def transformer_list_names : List String :=
  ["subject", "body_bow", "body_stats"]

/-- The weight mapping configured in the end-to-end pipeline of the
notebook. -/
def transformer_weights : List (String × ℚ) :=
  [("subject", 0.8), ("body_bow", 0.5), ("body_stats", 1.0)]

/-- A concrete 3 by 2 feature matrix used to instantiate the combiner
claim. -/
def exA : Mat := [[1, 2], [3, 4], [5, 6]]

/-- A concrete 3 by 4 feature matrix used to instantiate the combiner
claim. -/
def exB : Mat := [[10, 20, 30, 40], [50, 60, 70, 80], [90, 100, 110, 120]]

/-- A two-pipeline combiner configuration: constant pipelines producing
the two concrete matrices. -/
def exTransformers : List (String × (FieldBatch → Mat)) :=
  [("p1", fun _ => exA), ("p2", fun _ => exB)]

/-- Weights one half and one for the two concrete pipelines. -/
def exWeights : List (String × ℚ) := [("p1", 0.5), ("p2", 1.0)]

/-! ## Helper lemmas -/

/-- When the separator does not occur, `partitionPy` returns the whole
string as first component and an empty third component. -/
theorem partitionPy_no_sep (sep s : Str) (h : containsSeq sep s = false) :
    partitionPy sep s = (s, []) := by
  unfold partitionPy
  unfold containsSeq at h
  cases hfind : findSep sep s with
  | none => rfl
  | some p => rw [hfind] at h; simp at h

/-- The character-by-character dot counter agrees with the list-level
occurrence count. -/
theorem countDots_eq_count (s : Str) : countDots s = s.count '.' := by
  induction s with
  | nil => rfl
  | cons c t ih =>
    simp only [countDots, ih, List.count_cons]
    by_cases h : c = '.'
    · simp [h]; omega
    · simp [h]

/-- The subject-scanning loop returns the remainder of the first matching
line, and the empty string when no line matches. -/
theorem findSubject_eq_find (ls : List Str) :
    findSubject ls =
      ((ls.find? (fun l => isPre subjMarker l)).map
        (fun l => l.drop subjMarker.length)).getD [] := by
  induction ls with
  | nil => rfl
  | cons l ls ih =>
    by_cases h : isPre subjMarker l
    · simp [findSubject, h, List.find?_cons_of_pos _ h]
    · simp only [findSubject, h, if_neg, ih, Bool.false_eq_true, ite_false]
      rw [List.find?_cons_of_neg]
      simpa using h

/-- A nonempty stack of matrices with a common row count has that row
count. -/
theorem hstackAll_length (N : Nat) :
    ∀ Ms : List Mat, Ms ≠ [] → (∀ m ∈ Ms, m.length = N) →
      (hstackAll Ms).length = N := by
  intro Ms
  induction Ms with
  | nil => intro h _; exact absurd rfl h
  | cons m ms ih =>
    intro _ h
    cases ms with
    | nil => simpa [hstackAll] using h m (List.mem_cons_self m [])
    | cons m2 ms2 =>
      have hm : m.length = N := h m (List.mem_cons_self m (m2 :: ms2))
      have hrest : (hstackAll (m2 :: ms2)).length = N :=
        ih (by simp) (fun x hx => h x (List.mem_cons_of_mem _ hx))
      show (List.zipWith (fun r s => r ++ s) m (hstackAll (m2 :: ms2))).length = N
      rw [List.length_zipWith, hm, hrest, Nat.min_self]

/-- Row i of a stack of matrices with a common row count is the
concatenation of the rows i of the stacked matrices, in order. -/
theorem hstackAll_getD (N i : Nat) (hi : i < N) :
    ∀ Ms : List Mat, Ms ≠ [] → (∀ m ∈ Ms, m.length = N) →
      (hstackAll Ms).getD i []
        = (Ms.map (fun m => m.getD i [])).foldr (fun r acc => r ++ acc) [] := by
  intro Ms
  induction Ms with
  | nil => intro h _; exact absurd rfl h
  | cons m ms ih =>
    intro _ h
    cases ms with
    | nil => simp [hstackAll]
    | cons m2 ms2 =>
      have hm : m.length = N := h m (List.mem_cons_self m (m2 :: ms2))
      have hrest : (hstackAll (m2 :: ms2)).length = N :=
        hstackAll_length N (m2 :: ms2) (by simp)
          (fun x hx => h x (List.mem_cons_of_mem _ hx))
      have hmi : i < m.length := by rw [hm]; exact hi
      have hri : i < (hstackAll (m2 :: ms2)).length := by rw [hrest]; exact hi
      have hzi : i < (List.zipWith (fun r s => r ++ s) m (hstackAll (m2 :: ms2))).length := by
        rw [List.length_zipWith, hm, hrest, Nat.min_self]; exact hi
      have hzip :
          (List.zipWith (fun r s => r ++ s) m (hstackAll (m2 :: ms2))).getD i []
            = m.getD i [] ++ (hstackAll (m2 :: ms2)).getD i [] := by
        rw [List.getD_eq_getElem _ _ hzi, List.getD_eq_getElem _ _ hmi,
          List.getD_eq_getElem _ _ hri, List.getElem_zipWith]
      have ihr := ih (by simp) (fun x hx => h x (List.mem_cons_of_mem _ hx))
      show (List.zipWith (fun r s => r ++ s) m (hstackAll (m2 :: ms2))).getD i [] = _
      rw [hzip, ihr]
      simp

/-! ## Claims -/

/-- C2: on any Document Batch of length N, the Document Splitter returns a
Field Batch with exactly the two fields subject and body, each of length
exactly N, whose i-th element is derived from the i-th input document. -/
theorem splitter_shape (strip : Str → Str) (posts : List Str) :
    (SubjectBodyExtractor.transform strip posts).map Prod.fst = ["subject", "body"]
    ∧ (SubjectBodyExtractor.transform strip posts).lookup "subject"
        = some (posts.map sbSubject)
    ∧ (SubjectBodyExtractor.transform strip posts).lookup "body"
        = some (posts.map (sbBody strip))
    ∧ (posts.map sbSubject).length = posts.length
    ∧ (posts.map (sbBody strip)).length = posts.length :=
  ⟨rfl, rfl, rfl, by simp, by simp⟩

/-- C3: the subject of a document is obtained by scanning the header part
(before the first blank-line boundary) line by line for the first line
starting with the literal marker, keeping the remainder of that line with
only the marker removed, and the empty string when no line matches; the
header line for Hello World yields the subject with its leading space
preserved. -/
theorem subject_extraction_rule :
    (∀ text : Str,
        sbSubject text =
          (((splitNl (partitionPy nlnl text).1).find? (fun l => isPre subjMarker l)).map
            (fun l => l.drop subjMarker.length)).getD [])
    ∧ sbSubject ("Subject: Hello World\n\nLine one.\nLine two.".toList)
        = " Hello World".toList :=
  ⟨fun _ => findSubject_eq_find _, by decide⟩

/-- C4: the Statistics Extractor maps a batch of N body strings to exactly
N records in order, pairing each string with its character count and its
full-stop count; on the single body Hello. World. it yields the record
with length 13 and num sentences 2. -/
theorem textstats_records :
    (∀ posts : List Str,
        TextStats.transform posts = posts.map (fun s => ⟨s.length, s.count '.'⟩)
        ∧ (TextStats.transform posts).length = posts.length)
    ∧ TextStats.transform ["Hello. World.".toList] = [⟨13, 2⟩] := by
  refine ⟨fun posts => ⟨?_, by simp [TextStats.transform]⟩, by decide⟩
  simp [TextStats.transform, countDots_eq_count]

/-- C5: the Field Selector fails with the lookup-failure condition when the
configured key is absent from the batch, and never returns an ordinary
value in that case. -/
theorem item_selector_missing_key {α : Type} (s : ItemSelector)
    (d : List (String × α)) (h : d.lookup s.key = none) :
    s.transform d = Except.error "KeyError"
    ∧ ∀ v : α, s.transform d ≠ Except.ok v := by
  unfold ItemSelector.transform
  rw [h]
  exact ⟨rfl, fun v hv => Except.noConfusion hv⟩

/-- C5 witness: the selector configured with the key missing, applied to a
batch holding only the field subject, fails with the lookup error. -/
theorem item_selector_missing_key_witness :
    (ItemSelector.mk "missing").transform [("subject", (3 : Nat))]
      = Except.error "KeyError" :=
  (item_selector_missing_key (ItemSelector.mk "missing")
    [("subject", (3 : Nat))] (by decide)).1

/-- C7: when the configured key is present, the Field Selector returns
exactly the sequence stored under that key, and fit is a no-op returning
the selector itself. -/
theorem item_selector_present_key_and_fit {α β γ : Type} (s : ItemSelector)
    (d : List (String × α)) (v : α) (h : d.lookup s.key = some v) :
    s.transform d = Except.ok v
    ∧ ∀ (x : β) (y : Option γ), s.fit x y = s := by
  unfold ItemSelector.transform
  rw [h]
  exact ⟨rfl, fun x y => rfl⟩

/-- C7 witness: the selector configured with key subject, on a batch that
stores the value 3 under subject, returns exactly that value. -/
theorem item_selector_present_key_and_fit_witness :
    (ItemSelector.mk "subject").transform [("subject", (3 : Nat)), ("body", 4)]
      = Except.ok 3 :=
  (@item_selector_present_key_and_fit Nat Nat Nat (ItemSelector.mk "subject")
    [("subject", 3), ("body", 4)] 3 (by decide)).1

/-- C6: the Document Splitter is total: on every batch it returns the
two-field batch with one subject and one body per document; and a
malformed document, with no blank-line boundary and no subject line,
degrades to an empty subject and an empty body. -/
theorem splitter_total_and_degrades :
    (∀ (strip : Str → Str) (posts : List Str),
        SubjectBodyExtractor.transform strip posts
          = [("subject", posts.map sbSubject), ("body", posts.map (sbBody strip))])
    ∧ (∀ (strip : Str → Str) (text : Str),
        strip [] = [] →
        containsSeq nlnl text = false →
        (splitNl text).find? (fun l => isPre subjMarker l) = none →
        sbSubject text = [] ∧ sbBody strip text = []) := by
  refine ⟨fun strip posts => rfl, fun strip text hstrip hno hfind => ?_⟩
  have hpart := partitionPy_no_sep nlnl text hno
  constructor
  · unfold sbSubject
    rw [hpart]
    simp only []
    rw [findSubject_eq_find]
    simp [hfind]
  · unfold sbBody
    rw [hpart]
    exact hstrip

/-- C6 witness: a document with no header and body structure and no
subject line yields the empty subject and the empty body. -/
theorem splitter_total_and_degrades_witness :
    sbSubject ("hello world".toList) = []
    ∧ sbBody id ("hello world".toList) = [] :=
  splitter_total_and_degrades.2 id ("hello world".toList) rfl (by decide) (by decide)

/-- C9: when the header contains several lines starting with the subject
marker, the splitter uses the first such line and ignores the later
ones. -/
theorem first_subject_line_wins (text : Str) (pre post : List Str) (l : Str)
    (hsplit : splitNl (partitionPy nlnl text).1 = pre ++ l :: post)
    (hpre : ∀ lp ∈ pre, isPre subjMarker lp = false)
    (hl : isPre subjMarker l = true) :
    sbSubject text = l.drop subjMarker.length := by
  unfold sbSubject
  rw [hsplit]
  clear hsplit
  induction pre with
  | nil => simp [findSubject, hl]
  | cons p ps ih =>
    have hp : isPre subjMarker p = false := hpre p (List.mem_cons_self p ps)
    simp only [List.cons_append, findSubject, hp, Bool.false_eq_true, if_false]
    exact ih (fun lp hlp => hpre lp (List.mem_cons_of_mem _ hlp))

/-- C9 witness: with two subject lines in the header, the subject is the
remainder of the first one. -/
theorem first_subject_line_wins_witness :
    sbSubject ("From: x\nSubject: first\nSubject: second\n\nb".toList)
      = ("Subject: first".toList).drop subjMarker.length
    ∧ ("Subject: first".toList).drop subjMarker.length = " first".toList :=
  ⟨first_subject_line_wins ("From: x\nSubject: first\nSubject: second\n\nb".toList)
      ["From: x".toList] ["Subject: second".toList] ("Subject: first".toList)
      (by decide) (by decide) (by decide),
   by decide⟩

/-- C10: a document with no occurrence of the two-newline boundary is
treated entirely as header, so the subject scan runs over all its lines,
and the body is empty (given that the external cleaning utility maps the
empty string to itself). -/
theorem no_blank_line_whole_header (strip : Str → Str) (text : Str)
    (hno : containsSeq nlnl text = false) (hstrip : strip [] = []) :
    sbSubject text = findSubject (splitNl text) ∧ sbBody strip text = [] := by
  have hpart := partitionPy_no_sep nlnl text hno
  constructor
  · unfold sbSubject
    rw [hpart]
  · unfold sbBody
    rw [hpart]
    exact hstrip

/-- C10 witness: a document separated only by carriage-return newline
pairs is not split, and a subject line after that separator is still
found. -/
theorem no_blank_line_whole_header_witness :
    containsSeq nlnl ("A\r\n\r\nSubject: hi".toList) = false
    ∧ (sbSubject ("A\r\n\r\nSubject: hi".toList)
          = findSubject (splitNl ("A\r\n\r\nSubject: hi".toList))
        ∧ sbBody id ("A\r\n\r\nSubject: hi".toList) = [])
    ∧ sbSubject ("A\r\n\r\nSubject: hi".toList) = " hi".toList :=
  ⟨by decide,
   no_blank_line_whole_header id ("A\r\n\r\nSubject: hi".toList) (by decide) rfl,
   by decide⟩

/-- C1: the combiner on any field batch has one row per document, and each
of its rows is the concatenation, in configured list order, of the
corresponding rows of the weighted sub-pipeline outputs. -/
theorem feature_union_weighted_concat
    (ts : List (String × (FieldBatch → Mat))) (ws : List (String × ℚ))
    (X : FieldBatch) (N : Nat) (hne : ts ≠ [])
    (hrows : ∀ p ∈ ts, (p.2 X).length = N) :
    ((FeatureUnion.mk ts ws).transform X).length = N
    ∧ ∀ i, i < N →
        ((FeatureUnion.mk ts ws).transform X).getD i []
          = (ts.map
              (fun p => (scaleMatrix (getWeight ws p.1) (p.2 X)).getD i [])).foldr
              (fun r acc => r ++ acc) [] := by
  have hMs : ∀ m ∈ ts.map (fun p => scaleMatrix (getWeight ws p.1) (p.2 X)),
      m.length = N := by
    intro m hm
    obtain ⟨p, hp, rfl⟩ := List.mem_map.mp hm
    simpa [scaleMatrix] using hrows p hp
  have hne2 : ts.map (fun p => scaleMatrix (getWeight ws p.1) (p.2 X)) ≠ [] := by
    simpa using hne
  constructor
  · exact hstackAll_length N _ hne2 hMs
  · intro i hi
    have h := hstackAll_getD N i hi _ hne2 hMs
    simpa [FeatureUnion.transform, List.map_map, Function.comp] using h

/-- C1 witness: two constant pipelines producing matrices of shapes three
by two and three by four, with weights one half and one, yield a three by
six matrix whose rows concatenate the halved first matrix with the
unchanged second one. -/
theorem feature_union_weighted_concat_witness :
    ((FeatureUnion.mk exTransformers exWeights).transform []).length = 3
    ∧ ((FeatureUnion.mk exTransformers exWeights).transform []).getD 1 []
        = (exTransformers.map
            (fun p => (scaleMatrix (getWeight exWeights p.1) (p.2 [])).getD 1 [])).foldr
            (fun r acc => r ++ acc) []
    ∧ (FeatureUnion.mk exTransformers exWeights).transform []
        = [[1/2, 1, 10, 20, 30, 40], [3/2, 2, 50, 60, 70, 80],
           [5/2, 3, 90, 100, 110, 120]] :=
  ⟨(feature_union_weighted_concat exTransformers exWeights [] 3
      (by simp [exTransformers]) (by simp [exTransformers, exA, exB])).1,
   (feature_union_weighted_concat exTransformers exWeights [] 3
      (by simp [exTransformers]) (by simp [exTransformers, exA, exB])).2 1 (by norm_num),
   by
    have h1 : (("p2" : String) == "p1") = false := by decide
    norm_num [FeatureUnion.transform, exTransformers, exWeights, exA, exB,
      hstackAll, scaleMatrix, getWeight, List.lookup, h1]⟩

/-- C8: the end-to-end pipeline combiner is configured with exactly the
three named sub-pipelines subject, body bow, body stats, in that order,
with weights four fifths, one half and one. -/
theorem union_configuration :
    transformer_list_names = ["subject", "body_bow", "body_stats"]
    ∧ transformer_list_names.length = 3
    ∧ transformer_weights.map Prod.fst = transformer_list_names
    ∧ getWeight transformer_weights "subject" = 4/5
    ∧ getWeight transformer_weights "body_bow" = 1/2
    ∧ getWeight transformer_weights "body_stats" = 1 := by
  have h1 : (("body_bow" : String) == "subject") = false := by decide
  have h2 : (("body_stats" : String) == "subject") = false := by decide
  have h3 : (("body_stats" : String) == "body_bow") = false := by decide
  refine ⟨rfl, rfl, rfl, ?_, ?_, ?_⟩
  · norm_num [getWeight, transformer_weights, List.lookup]
  · norm_num [getWeight, transformer_weights, List.lookup, h1]
  · norm_num [getWeight, transformer_weights, List.lookup, h2, h3]

end FeatureUnionDoc
